import Mathlib

deriving instance DecidableEq for Except

/-!
Shallow embedding of the work21-backend workflow engine
(src/app/api/projects.py, src/app/api/ratings.py, src/app/api/admin.py,
src/app/models/{user,project,rating}.py).

Modelling conventions:
* SQLAlchemy tables become lists of records inside a `DB` state; `select ... where
  id == x` + `scalar_one_or_none()` becomes `List.find?`; committing a mutation of a
  fetched row becomes replacement-by-id (`DB.setProject` etc.).
* Machine floats (`budget`, `rating_score`, SQL `AVG`) are modelled as `ℚ`.
* Fields that every endpoint stores opaquely and no guard ever reads
  (timestamps, free text, JSON-encoded lists, LLM artifacts, password hashes)
  are omitted; spec §1 scopes them out as plumbing.
* Each endpoint returns `DB × Except ApiError α`: the returned `DB` is what the
  durable store holds after the call.  An `HTTPException` raised before
  `db.commit()` means the session is discarded, so every error branch returns
  the input `DB` unchanged — this mirrors the source, where every raise site
  precedes every mutation of the session.
* `ApiError` is the spec §7 taxonomy; each raise site is tagged with the class
  §7 assigns to its guard (the HTTP code is noted in comments where it differs
  in granularity: the source maps InvalidState/InvalidArgument/Conflict all to
  HTTP 400 with distinct `detail` messages).
* Callers arrive authenticated: the FastAPI dependency injects a `User` object,
  so operations take the caller as a `User` value (the dependency module
  `app/api/deps.py` is not under `src/`; only the admin-role requirement of
  `get_current_admin_user` is modelled, from the spec).
-/

namespace Work21

/-- `UserRole` from src/app/models/user.py (student = spec "worker",
customer = spec "requester", admin = spec "operator"). -/
inductive UserRole
  | student
  | customer
  | admin
deriving DecidableEq, Repr

/-- `ProjectStatus` from src/app/models/project.py; `open_` models the
source value `OPEN = "open"` (`open` is reserved in Lean). -/
inductive ProjectStatus
  | draft
  | open_
  | inProgress
  | review
  | completed
  | cancelled
deriving DecidableEq, Repr

/-- `TaskStatus` from src/app/models/project.py. -/
inductive TaskStatus
  | pending
  | inProgress
  | review
  | completed
deriving DecidableEq, Repr

/-- `ApplicationStatus` from src/app/models/project.py. -/
inductive ApplicationStatus
  | pending
  | accepted
  | rejected
deriving DecidableEq, Repr

/-- `User` row (src/app/models/user.py): id, role, rating_score (Float → ℚ),
completed_projects. -/
structure User where
  id : Nat
  role : UserRole
  rating_score : ℚ
  completed_projects : Nat
deriving DecidableEq, Repr

/-- `Project` row (src/app/models/project.py). -/
structure Project where
  id : Nat
  title : String
  budget : ℚ
  status : ProjectStatus
  customer_id : Nat
  assignee_id : Option Nat
deriving DecidableEq, Repr

/-- `Task` row (src/app/models/project.py); `order` is the per-project
ordering index assigned as max+1 at creation. -/
structure Task where
  id : Nat
  project_id : Nat
  title : String
  complexity : Nat
  status : TaskStatus
  order : Nat
  assignee_id : Option Nat
deriving DecidableEq, Repr

/-- `Application` row (src/app/models/project.py). -/
structure Application where
  id : Nat
  project_id : Nat
  student_id : Nat
  status : ApplicationStatus
deriving DecidableEq, Repr

/-- `Rating` row (src/app/models/rating.py); the three optional sub-scores and
the comment are stored opaquely and omitted. -/
structure Rating where
  id : Nat
  project_id : Nat
  reviewer_id : Nat
  reviewee_id : Nat
  score : Nat
deriving DecidableEq, Repr

/-- The durable store: one list per table plus autoincrement counters. -/
structure DB where
  users : List User
  projects : List Project
  tasks : List Task
  applications : List Application
  ratings : List Rating
  next_project_id : Nat
  next_task_id : Nat
  next_application_id : Nat
  next_rating_id : Nat
deriving DecidableEq, Repr

/-- `select(User).where(User.id == uid)` + `scalar_one_or_none()`. -/
def DB.findUser (db : DB) (uid : Nat) : Option User :=
  db.users.find? fun u => u.id == uid

/-- `select(Project).where(Project.id == pid)` + `scalar_one_or_none()`. -/
def DB.findProject (db : DB) (pid : Nat) : Option Project :=
  db.projects.find? fun p => p.id == pid

/-- `select(Application).where(id == aid).where(project_id == pid)`. -/
def DB.findApplication (db : DB) (aid pid : Nat) : Option Application :=
  db.applications.find? fun a => a.id == aid && a.project_id == pid

/-- `select(Task).where(id == tid).where(project_id == pid)`. -/
def DB.findTask (db : DB) (tid pid : Nat) : Option Task :=
  db.tasks.find? fun t => t.id == tid && t.project_id == pid

/-- Committing a mutation of a fetched `Project` row: replace by id. -/
def DB.setProject (db : DB) (p : Project) : DB :=
  { db with projects := db.projects.map fun q => if q.id == p.id then p else q }

/-- Committing a mutation of a fetched `User` row: replace by id. -/
def DB.setUser (db : DB) (u : User) : DB :=
  { db with users := db.users.map fun v => if v.id == u.id then u else v }

/-- Committing a mutation of a fetched `Application` row: replace by id. -/
def DB.setApplication (db : DB) (a : Application) : DB :=
  { db with applications := db.applications.map fun b => if b.id == a.id then a else b }

/-- Committing a mutation of a fetched `Task` row: replace by id. -/
def DB.setTask (db : DB) (t : Task) : DB :=
  { db with tasks := db.tasks.map fun s => if s.id == t.id then t else s }

/-- Python truthiness of an optional integer id (`if assignee_id:` and
`if not project.assignee_id:` in the source): `None` and `0` are both falsy. -/
def optTruthy : Option Nat → Bool
  | none => false
  | some n => n != 0

/-- Spec §7 error taxonomy.  The source reports NotFound as HTTP 404,
Forbidden as 403, and InvalidState / InvalidArgument / Conflict all as
HTTP 400 with distinct detail strings. -/
inductive ApiError
  | notFound
  | forbidden
  | invalidState
  | invalidArgument
  | conflict
deriving DecidableEq, Repr

/-- Input of `POST /projects/` (`ProjectCreate` schema; only the fields the
model keeps). The schema validates `budget > 0`. -/
structure ProjectCreate where
  title : String
  budget : ℚ
deriving DecidableEq, Repr

/-- `create_project` (src/app/api/projects.py lines 35-81): customers only;
creates the project in status `draft` with no assignee. -/
def create_project (db : DB) (project_data : ProjectCreate) (current_user : User) :
    DB × Except ApiError Project :=
  if current_user.role != UserRole.customer then
    (db, .error .forbidden)
  else
    let project : Project :=
      { id := db.next_project_id
        title := project_data.title
        budget := project_data.budget
        status := .draft
        customer_id := current_user.id
        assignee_id := none }
    ({ db with
        projects := db.projects ++ [project]
        next_project_id := db.next_project_id + 1 },
     .ok project)

/-- `publish_project` (src/app/api/projects.py lines 231-277): owner only,
draft → open. -/
def publish_project (db : DB) (project_id : Nat) (current_user : User) :
    DB × Except ApiError Project :=
  match db.findProject project_id with
  | none => (db, .error .notFound)
  | some project =>
    if project.customer_id != current_user.id then
      (db, .error .forbidden)
    else if project.status != .draft then
      (db, .error .invalidState)
    else
      let project' := { project with status := ProjectStatus.open_ }
      (db.setProject project', .ok project')

/-- `complete_project` (src/app/api/projects.py lines 280-332): owner only;
the status guard (`status in [IN_PROGRESS, REVIEW]`) runs BEFORE the assignee
guard (`if not project.assignee_id`, Python truthiness). -/
def complete_project (db : DB) (project_id : Nat) (current_user : User) :
    DB × Except ApiError Project :=
  match db.findProject project_id with
  | none => (db, .error .notFound)
  | some project =>
    if project.customer_id != current_user.id then
      (db, .error .forbidden)
    else if ¬ (project.status = .inProgress ∨ project.status = .review) then
      (db, .error .invalidState)
    else if ¬ optTruthy project.assignee_id then
      (db, .error .invalidArgument)
    else
      let project' := { project with status := ProjectStatus.completed }
      (db.setProject project', .ok project')

/-- `request_review` (src/app/api/projects.py lines 335-381): assignee only,
in_progress → review.  In the source `project.assignee_id != current_user.id`
is true whenever `assignee_id` is `None`. -/
def request_review (db : DB) (project_id : Nat) (current_user : User) :
    DB × Except ApiError Project :=
  match db.findProject project_id with
  | none => (db, .error .notFound)
  | some project =>
    if project.assignee_id != some current_user.id then
      (db, .error .forbidden)
    else if project.status != .inProgress then
      (db, .error .invalidState)
    else
      let project' := { project with status := ProjectStatus.review }
      (db.setProject project', .ok project')

/-- `apply_for_project` (src/app/api/projects.py lines 386-443): students
only, project must be open, at most one application per (project, student);
the duplicate check is the §7 `Conflict` class. -/
def apply_for_project (db : DB) (project_id : Nat) (current_user : User) :
    DB × Except ApiError Application :=
  if current_user.role != UserRole.student then
    (db, .error .forbidden)
  else
    match db.findProject project_id with
    | none => (db, .error .notFound)
    | some project =>
      if project.status != ProjectStatus.open_ then
        (db, .error .invalidState)
      else if db.applications.any
          (fun a => a.project_id == project_id && a.student_id == current_user.id) then
        (db, .error .conflict)
      else
        let application : Application :=
          { id := db.next_application_id
            project_id := project_id
            student_id := current_user.id
            status := .pending }
        ({ db with
            applications := db.applications ++ [application]
            next_application_id := db.next_application_id + 1 },
         .ok application)

/-- `update_application_status` (src/app/api/projects.py lines 482-528): the
source raises 403 both when the project is missing and when the caller is not
the owner (`if not project or project.customer_id != current_user.id`); the
application's status is overwritten unconditionally and, when the new status
is accepted, the project is set to in_progress regardless of its prior
status.  `assignee_id` is never touched. -/
def update_application_status (db : DB) (project_id application_id : Nat)
    (new_status : ApplicationStatus) (current_user : User) :
    DB × Except ApiError Application :=
  match db.findProject project_id with
  | none => (db, .error .forbidden)
  | some project =>
    if project.customer_id != current_user.id then
      (db, .error .forbidden)
    else
      match db.findApplication application_id project_id with
      | none => (db, .error .notFound)
      | some application =>
        let application' := { application with status := new_status }
        let db1 := db.setApplication application'
        let db2 :=
          if new_status = ApplicationStatus.accepted then
            db1.setProject { project with status := ProjectStatus.inProgress }
          else db1
        (db2, .ok application')

/-- `assign_task_assignee` (src/app/api/projects.py lines 538-615): owner
only; `if assignee_data.assignee_id:` is Python truthiness, so a target of
`0` takes the unassign branch. -/
def assign_task_assignee (db : DB) (project_id task_id : Nat)
    (assignee_id : Option Nat) (current_user : User) :
    DB × Except ApiError Task :=
  match db.findProject project_id with
  | none => (db, .error .notFound)
  | some project =>
    if project.customer_id != current_user.id then
      (db, .error .forbidden)
    else
      match db.findTask task_id project_id with
      | none => (db, .error .notFound)
      | some task =>
        if optTruthy assignee_id then
          match db.findUser (assignee_id.getD 0) with
          | none => (db, .error .notFound)
          | some assignee =>
            if assignee.role != UserRole.student then
              (db, .error .invalidArgument)
            else
              let task' := { task with assignee_id := assignee_id }
              (db.setTask task', .ok task')
        else
          let task' := { task with assignee_id := none }
          (db.setTask task', .ok task')

/-- `assign_project_assignee` (src/app/api/projects.py lines 625-693): owner
only; `if assignee_data.assignee_id:` is Python truthiness (a target of `0`
takes the unassign branch); assigning from status open moves the project to
in_progress, any other status is left unchanged; unassigning clears the
assignee and never changes the status. -/
def assign_project_assignee (db : DB) (project_id : Nat)
    (assignee_id : Option Nat) (current_user : User) :
    DB × Except ApiError Project :=
  match db.findProject project_id with
  | none => (db, .error .notFound)
  | some project =>
    if project.customer_id != current_user.id then
      (db, .error .forbidden)
    else
      if optTruthy assignee_id then
        match db.findUser (assignee_id.getD 0) with
        | none => (db, .error .notFound)
        | some assignee =>
          if assignee.role != UserRole.student then
            (db, .error .invalidArgument)
          else
            let project' :=
              { project with
                  assignee_id := assignee_id
                  status :=
                    if project.status = ProjectStatus.open_ then
                      ProjectStatus.inProgress
                    else project.status }
            (db.setProject project', .ok project')
      else
        let project' := { project with assignee_id := none }
        (db.setProject project', .ok project')

/-- Input of `POST /projects/{id}/tasks` (`TaskCreate` schema; only the
fields the model keeps; the schema validates `1 ≤ complexity ≤ 5`). -/
structure TaskCreate where
  title : String
  complexity : Nat
deriving DecidableEq, Repr

/-- `create_task` (src/app/api/projects.py lines 719-772): owner only;
`order` is `(select max(Task.order) where project_id) or 0` plus one. -/
def create_task (db : DB) (project_id : Nat) (task_data : TaskCreate)
    (current_user : User) : DB × Except ApiError Task :=
  match db.findProject project_id with
  | none => (db, .error .notFound)
  | some project =>
    if project.customer_id != current_user.id then
      (db, .error .forbidden)
    else
      let max_order :=
        ((db.tasks.filter fun t => t.project_id == project_id).map Task.order).foldr max 0
      let next_order := max_order + 1
      let task : Task :=
        { id := db.next_task_id
          project_id := project_id
          title := task_data.title
          complexity := task_data.complexity
          status := .pending
          order := next_order
          assignee_id := none }
      ({ db with
          tasks := db.tasks ++ [task]
          next_task_id := db.next_task_id + 1 },
       .ok task)

/-- Input of `POST /ratings/` (`RatingCreate` schema; the schema validates
`1 ≤ score ≤ 5`; comment and sub-scores are stored opaquely and omitted). -/
structure RatingCreate where
  project_id : Nat
  reviewee_id : Nat
  score : Nat
deriving DecidableEq, Repr

/-- The role/pairing guards of `create_rating` (src/app/api/ratings.py lines
74-100), run after the project-completed guard: a customer must own the
project and name its (truthy) assignee; a student must be the assignee and
name the customer; any other role is rejected.  `if not project.assignee_id
or project.assignee_id != rating_data.reviewee_id` uses Python truthiness. -/
def rating_role_guard (project : Project) (current_user : User)
    (reviewee_id : Nat) : Option ApiError :=
  match current_user.role with
  | .customer =>
    if project.customer_id != current_user.id then
      some .forbidden
    else if ¬ optTruthy project.assignee_id ∨ project.assignee_id ≠ some reviewee_id then
      some .invalidArgument
    else none
  | .student =>
    if project.assignee_id != some current_user.id then
      some .forbidden
    else if project.customer_id != reviewee_id then
      some .invalidArgument
    else none
  | .admin => some .forbidden

/-- `AVG(Rating.score)` + `avg_result.scalar() or 0` + `float(...)` from
`create_rating`: the mean of a score list as a rational, `0` when empty. -/
def avgOrZero (scores : List Nat) : ℚ :=
  if scores.length = 0 then 0
  else (scores.map fun (n : Nat) => (n : ℚ)).sum / (scores.length : ℚ)

/-- Scores of all ratings whose reviewee is `uid` (the recomputation set of
`create_rating`: all of the user's ratings, not just one project's). -/
def DB.revieweeScores (db : DB) (uid : Nat) : List Nat :=
  (db.ratings.filter fun r => r.reviewee_id == uid).map Rating.score

/-- The trailing `if reviewee:` block of `create_rating` (src/app/api/
ratings.py lines 126-139): look the reviewee up; when found, set the
reviewee's `rating_score` to the mean of all ratings naming them as reviewee
(in `db1`, the store already holding the new rating, because the `SELECT AVG`
autoflushes the pending insert) and, when the reviewer is a customer,
increment `completed_projects`; when the reviewee id matches no user, change
nothing (the rating row is still inserted). -/
def applyRatingScore (db1 : DB) (reviewee_id : Nat) (customer_reviewer : Bool) : DB :=
  match db1.findUser reviewee_id with
  | none => db1
  | some reviewee =>
    let reviewee' :=
      { reviewee with
          rating_score := avgOrZero (db1.revieweeScores reviewee.id)
          completed_projects :=
            if customer_reviewer then reviewee.completed_projects + 1
            else reviewee.completed_projects }
    db1.setUser reviewee'

/-- `create_rating` (src/app/api/ratings.py lines 48-144): requires the
project completed, the §4.4 pairing, and no prior rating by this reviewer for
this project (§7 `Conflict`).  On success the rating row is inserted and —
because `db.add(rating)` precedes the `SELECT AVG` and the session autoflushes
— the reviewee's `rating_score` is recomputed as the mean over all of the
reviewee's ratings including the new one; when the reviewer is a customer the
reviewee's `completed_projects` is incremented.  When the reviewee id matches
no user the rating is still inserted and no score is updated. -/
def create_rating (db : DB) (rating_data : RatingCreate) (current_user : User) :
    DB × Except ApiError Rating :=
  match db.findProject rating_data.project_id with
  | none => (db, .error .notFound)
  | some project =>
    if project.status != ProjectStatus.completed then
      (db, .error .invalidState)
    else
      match rating_role_guard project current_user rating_data.reviewee_id with
      | some e => (db, .error e)
      | none =>
        if db.ratings.any (fun r =>
            r.project_id == rating_data.project_id && r.reviewer_id == current_user.id) then
          (db, .error .conflict)
        else
          let rating : Rating :=
            { id := db.next_rating_id
              project_id := rating_data.project_id
              reviewer_id := current_user.id
              reviewee_id := rating_data.reviewee_id
              score := rating_data.score }
          let db1 : DB :=
            { db with
                ratings := db.ratings ++ [rating]
                next_rating_id := db.next_rating_id + 1 }
          (applyRatingScore db1 rating_data.reviewee_id
            (current_user.role == UserRole.customer), .ok rating)

/-- Modelled from the spec: `get_current_admin_user` lives in
`app/api/deps.py`, which is not under `src/`; per §2/§4 and the glossary the
operator role (`role=admin`) is required before any admin endpoint body runs,
else the caller is rejected. -/
def requireAdmin (current_user : User) : Option ApiError :=
  if current_user.role = UserRole.admin then none else some .forbidden

/-- Admin `delete_project` (src/app/api/admin.py lines 701-719) — the spec
§4.1 "Cancel" operation: looks the project up and unconditionally sets
status=cancelled ("Устанавливаем статус отменён вместо удаления"); the body
contains no check that the current status is non-terminal. -/
def admin_delete_project (db : DB) (project_id : Nat) (current_user : User) :
    DB × Except ApiError Unit :=
  match requireAdmin current_user with
  | some e => (db, .error e)
  | none =>
    match db.findProject project_id with
    | none => (db, .error .notFound)
    | some project =>
      (db.setProject { project with status := ProjectStatus.cancelled }, .ok ())

/-- The §4.1 transition graph, read off the §4.1 operations: publish
draft → open, assignment/acceptance open → in_progress, request-review
in_progress → review, complete {in_progress, review} → completed, cancel
non-terminal → cancelled.  `completed` and `cancelled` are terminal sinks. -/
def statusEdge : ProjectStatus → ProjectStatus → Bool
  | .draft, .open_ => true
  | .open_, .inProgress => true
  | .inProgress, .review => true
  | .inProgress, .completed => true
  | .review, .completed => true
  | .draft, .cancelled => true
  | .open_, .cancelled => true
  | .inProgress, .cancelled => true
  | .review, .cancelled => true
  | _, _ => false

/-- Run a sequence of `SubmitRating` calls left to right; the Bool reports
whether every call succeeded (a failing call stops the run, mirroring a
caller that stops on the first error; per the rollback convention the failing
call leaves the store as it was). -/
def runRatings : DB → List (RatingCreate × User) → DB × Bool
  | db, [] => (db, true)
  | db, (rating_data, cu) :: rest =>
    match create_rating db rating_data cu with
    | (db', .ok _) => runRatings db' rest
    | (db', .error _) => (db', false)

/-! Concrete scenario states (used by the per-claim theorems and witnesses).
`user1` is the spec's requester U1, `user2` the worker U2, `user3` a second
worker, `user4` a second requester, `adminUser` an operator. -/

/-- Requester U1. -/
def user1 : User := { id := 1, role := .customer, rating_score := 0, completed_projects := 0 }

/-- Worker U2. -/
def user2 : User := { id := 2, role := .student, rating_score := 0, completed_projects := 0 }

/-- A second worker. -/
def user3 : User := { id := 3, role := .student, rating_score := 0, completed_projects := 0 }

/-- A second requester. -/
def user4 : User := { id := 4, role := .customer, rating_score := 0, completed_projects := 0 }

/-- An operator (role=admin). -/
def adminUser : User := { id := 9, role := .admin, rating_score := 0, completed_projects := 0 }

/-- Initial store: the four regular users, nothing else. -/
def db0 : DB :=
  { users := [user1, user2, user3, user4], projects := [], tasks := [],
    applications := [], ratings := [],
    next_project_id := 1, next_task_id := 1, next_application_id := 1, next_rating_id := 1 }

/-- U1 creates a project with budget 1000 (status draft). -/
def happy1 : DB := (create_project db0 { title := "p", budget := 1000 } user1).1

/-- U1 publishes it (status open). -/
def happy2 : DB := (publish_project happy1 1 user1).1

/-- U2 applies (application 1, pending). -/
def happy3 : DB := (apply_for_project happy2 1 user2).1

/-- U1 accepts application 1 (application accepted, project in_progress,
assignee still null). -/
def happy4 : DB := (update_application_status happy3 1 1 .accepted user1).1

/-- U1 additionally assigns U2 directly (the step the spec scenario omits;
without it U2's request-review is rejected). -/
def happy5 : DB := (assign_project_assignee happy4 1 (some 2) user1).1

/-- U2 requests review (status review). -/
def happy6 : DB := (request_review happy5 1 user2).1

/-- U1 completes the project (status completed). -/
def happy7 : DB := (complete_project happy6 1 user1).1

/-- U1 rates U2 with score 5. -/
def happy8 : DB := (create_rating happy7 { project_id := 1, reviewee_id := 2, score := 5 } user1).1

/-- Variant trace with a second applicant: U3 also applies while the project
is open (application 2, pending). -/
def two3 : DB := (apply_for_project happy3 1 user3).1

/-- U1 accepts U2's application 1. -/
def two4 : DB := (update_application_status two3 1 1 .accepted user1).1

/-- U1 assigns U2. -/
def two5 : DB := (assign_project_assignee two4 1 (some 2) user1).1

/-- U2 requests review. -/
def two6 : DB := (request_review two5 1 user2).1

/-- U1 completes the project; application 2 is still pending. -/
def two7 : DB := (complete_project two6 1 user1).1

/-- U1 accepts the still-pending application 2 on the already-completed
project: the project status is set back to in_progress. -/
def two8 : DB := (update_application_status two7 1 2 .accepted user1).1

/-- Store for the rating-aggregation witness: two completed projects, both
executed by U2, owned by U1 and U4 respectively. -/
def ratingDb : DB :=
  { users := [user1, user2, user4],
    projects :=
      [ { id := 1, title := "a", budget := 10, status := .completed,
          customer_id := 1, assignee_id := some 2 },
        { id := 2, title := "b", budget := 20, status := .completed,
          customer_id := 4, assignee_id := some 2 } ],
    tasks := [], applications := [], ratings := [],
    next_project_id := 3, next_task_id := 1, next_application_id := 1, next_rating_id := 1 }

/-- U1 rates U2 with 5 on project 1, then U4 rates U2 with 4 on project 2. -/
def ratingCalls : List (RatingCreate × User) :=
  [ ({ project_id := 1, reviewee_id := 2, score := 5 }, user1),
    ({ project_id := 2, reviewee_id := 2, score := 4 }, user4) ]

/-! ## Helper lemmas about the store primitives -/

theorem find?_map_of_pred {α : Type} (l : List α) (f : α → α) (p : α → Bool)
    (hf : ∀ x, p (f x) = p x) :
    (l.map f).find? p = (l.find? p).map f := by
  rw [List.find?_map]
  have h : p ∘ f = p := funext hf
  rw [h]

theorem findProject_setProject (db : DB) (p : Project) (pid : Nat) :
    (db.setProject p).findProject pid =
      (db.findProject pid).map (fun q => if q.id == p.id then p else q) := by
  show (db.projects.map fun q => if q.id == p.id then p else q).find? (fun q => q.id == pid)
      = (db.projects.find? fun q => q.id == pid).map (fun q => if q.id == p.id then p else q)
  apply find?_map_of_pred
  intro q
  by_cases h : (q.id == p.id) = true
  · have hq : q.id = p.id := by simpa using h
    simp [h, hq]
  · simp [h]

theorem findUser_setUser (db : DB) (u : User) (uid : Nat) :
    (db.setUser u).findUser uid =
      (db.findUser uid).map (fun v => if v.id == u.id then u else v) := by
  show (db.users.map fun v => if v.id == u.id then u else v).find? (fun v => v.id == uid)
      = (db.users.find? fun v => v.id == uid).map (fun v => if v.id == u.id then u else v)
  apply find?_map_of_pred
  intro v
  by_cases h : (v.id == u.id) = true
  · have hv : v.id = u.id := by simpa using h
    simp [h, hv]
  · simp [h]

theorem findProject_setApplication (db : DB) (a : Application) (pid : Nat) :
    (db.setApplication a).findProject pid = db.findProject pid := rfl

theorem findUser_setApplication (db : DB) (a : Application) (uid : Nat) :
    (db.setApplication a).findUser uid = db.findUser uid := rfl

theorem findUser_setProject (db : DB) (p : Project) (uid : Nat) :
    (db.setProject p).findUser uid = db.findUser uid := rfl

theorem findProject_id {db : DB} {pid : Nat} {p : Project}
    (h : db.findProject pid = some p) : p.id = pid := by
  have := List.find?_some h
  simpa using this

theorem findUser_id {db : DB} {uid : Nat} {u : User}
    (h : db.findUser uid = some u) : u.id = uid := by
  have := List.find?_some h
  simpa using this

theorem applyRatingScore_projects (db1 : DB) (uid : Nat) (b : Bool) :
    (applyRatingScore db1 uid b).projects = db1.projects := by
  unfold applyRatingScore
  split <;> rfl

/-! ## C2 -/

/-- C2: accepting an application sets the application's status to accepted
and the project's status to in_progress, but never touches the project's
`assignee_id`: a project with no prior direct assignment is in_progress with
a null assignee after acceptance. -/
theorem accept_application_leaves_assignee
    (db : DB) (pid aid : Nat) (cu : User) (p : Project) (db' : DB) (app' : Application)
    (hp : db.findProject pid = some p)
    (hassign : p.assignee_id = none)
    (h : update_application_status db pid aid .accepted cu = (db', .ok app')) :
    app'.status = .accepted ∧
    (db'.findProject pid).map Project.status = some .inProgress ∧
    (db'.findProject pid).map Project.assignee_id = some none := by
  unfold update_application_status at h
  simp only [hp] at h
  split at h
  · simp at h
  · split at h
    · simp at h
    · simp only [reduceIte, Prod.mk.injEq, Except.ok.injEq] at h
      obtain ⟨hdb, happ⟩ := h
      subst hdb
      subst happ
      refine ⟨rfl, ?_, ?_⟩ <;>
      · rw [findProject_setProject, findProject_setApplication, hp]
        simp [hassign]

/-- C2, witness: in the concrete happy-path store, accepting U2's pending
application moves the project to in_progress with the assignee still null. -/
theorem accept_application_leaves_assignee_w :
    (happy4.findProject 1).map Project.status = some .inProgress ∧
    (happy4.findProject 1).map Project.assignee_id = some none :=
  (accept_application_leaves_assignee happy3 1 1 user1
      { id := 1, title := "p", budget := 1000, status := .open_, customer_id := 1,
        assignee_id := none }
      happy4
      { id := 1, project_id := 1, student_id := 2, status := .accepted }
      (by decide) (by decide) (by decide)).2

/-! ## C1 -/

/-- C1, counterexample: following the spec's scenario literally — U1 creates
(draft), publishes (open), U2 applies (pending), U1 accepts (accepted +
in_progress) — U2's RequestReview does NOT succeed: the acceptance path never
sets `assignee_id`, so `request_review` rejects U2 with Forbidden. -/
theorem happy_path_cex :
    (happy1.findProject 1).map Project.status = some .draft ∧
    (happy2.findProject 1).map Project.status = some .open_ ∧
    (happy3.findApplication 1 1).map Application.status = some .pending ∧
    (happy4.findApplication 1 1).map Application.status = some .accepted ∧
    (happy4.findProject 1).map Project.status = some .inProgress ∧
    (happy4.findProject 1).map Project.assignee_id = some none ∧
    request_review happy4 1 user2 = (happy4, .error .forbidden) := by
  decide

/-- C1 (amended): the happy-path scenario holds end to end once U1 also
assigns U2 via AssignWorker after accepting the application (the acceptance
alone leaves the assignee null, so RequestReview and CompleteProject would
fail): draft → open → (apply, accept: accepted + in_progress) → assign U2 →
review → completed, and U1's rating of U2 with score 5 yields
rating_score = 5 and completed_projects = 1 for U2. -/
theorem happy_path_with_assign :
    (happy1.findProject 1).map Project.status = some .draft ∧
    (happy2.findProject 1).map Project.status = some .open_ ∧
    (happy3.findApplication 1 1).map Application.status = some .pending ∧
    (happy4.findApplication 1 1).map Application.status = some .accepted ∧
    (happy4.findProject 1).map Project.status = some .inProgress ∧
    (happy5.findProject 1).map Project.assignee_id = some (some 2) ∧
    (happy6.findProject 1).map Project.status = some .review ∧
    (happy7.findProject 1).map Project.status = some .completed ∧
    (create_rating happy7 { project_id := 1, reviewee_id := 2, score := 5 } user1).2 =
      .ok { id := 1, project_id := 1, reviewer_id := 1, reviewee_id := 2, score := 5 } ∧
    (happy8.findUser 2).map User.rating_score = some 5 ∧
    (happy8.findUser 2).map User.completed_projects = some 1 := by
  have h : happy8.findUser 2 =
      some { id := 2, role := .student, rating_score := avgOrZero [5],
             completed_projects := 1 } := rfl
  refine ⟨by decide, by decide, by decide, by decide, by decide, by decide, by decide,
    by decide, by decide, ?_, ?_⟩
  · rw [h]
    norm_num [avgOrZero]
  · rw [h]
    rfl

/-! ## C3 -/

theorem find?_replace_hit (l : List Application) (a' : Application) (aid pid : Nat)
    (hid : a'.id = aid) (hpid : a'.project_id = pid) (b0 : Application)
    (hex : l.find? (fun b => b.id == aid && b.project_id == pid) = some b0) :
    ((l.map fun b => if b.id == a'.id then a' else b).find?
      (fun b => b.id == aid && b.project_id == pid)) = some a' := by
  induction l with
  | nil => simp at hex
  | cons b l ih =>
    simp only [List.map_cons]
    by_cases hb : (b.id == a'.id) = true
    · rw [if_pos hb]
      have hpa : (a'.id == aid && a'.project_id == pid) = true := by simp [hid, hpid]
      rw [List.find?_cons, hpa]
    · rw [if_neg hb]
      have hbid : ¬ b.id = a'.id := by simpa using hb
      have hpredb : (b.id == aid && b.project_id == pid) = false := by
        have hna : ¬ b.id = aid := fun hcon => hbid (by rw [hcon, hid])
        simp [hna]
      rw [List.find?_cons, hpredb] at hex
      rw [List.find?_cons, hpredb]
      exact ih hex

theorem findApplication_setApplication_hit (db : DB) (a' : Application) (aid pid : Nat)
    (hid : a'.id = aid) (hpid : a'.project_id = pid) (b0 : Application)
    (hex : db.findApplication aid pid = some b0) :
    (db.setApplication a').findApplication aid pid = some a' :=
  find?_replace_hit db.applications a' aid pid hid hpid b0 hex

theorem findApplication_setProject (db : DB) (p : Project) (aid pid : Nat) :
    (db.setProject p).findApplication aid pid = db.findApplication aid pid := rfl

/-- C3, counterexample: application 1 is already decided (accepted), yet the
owner's DecideApplication with decision=rejected succeeds and changes its
stored status to rejected — decided applications are not immutable. -/
theorem decision_final_cex :
    (happy4.findApplication 1 1).map Application.status = some .accepted ∧
    (update_application_status happy4 1 1 .rejected user1).2 =
      .ok { id := 1, project_id := 1, student_id := 2, status := .rejected } ∧
    ((update_application_status happy4 1 1 .rejected user1).1.findApplication 1 1).map
      Application.status = some .rejected := by
  decide

/-- C3 (amended): DecideApplication performs no finality check at all:
whenever the caller owns the project and the (project, application) pair
exists, the call succeeds and overwrites the application's stored status
with the requested decision, regardless of the prior status. -/
theorem decision_overwrites
    (db : DB) (pid aid : Nat) (st : ApplicationStatus) (cu : User)
    (db' : DB) (app' : Application)
    (h : update_application_status db pid aid st cu = (db', .ok app')) :
    app'.status = st ∧
    (db'.findApplication aid pid).map Application.status = some st := by
  unfold update_application_status at h
  rcases hp : db.findProject pid with _ | p
  · rw [hp] at h
    simp at h
  · simp only [hp] at h
    split at h
    · simp at h
    · rcases hfa : db.findApplication aid pid with _ | a
      · simp only [hfa] at h
        simp at h
      · simp only [hfa] at h
        have hpred := List.find?_some hfa
        have hida : a.id = aid := by
          have := (Bool.and_eq_true _ _ |>.mp hpred).1
          simpa using this
        have hpida : a.project_id = pid := by
          have := (Bool.and_eq_true _ _ |>.mp hpred).2
          simpa using this
        split at h
        · simp only [Prod.mk.injEq, Except.ok.injEq] at h
          obtain ⟨hdb, happ⟩ := h
          subst hdb
          subst happ
          refine ⟨rfl, ?_⟩
          rw [findApplication_setProject,
            findApplication_setApplication_hit db { a with status := st } aid pid
              hida hpida a hfa]
          rfl
        · simp only [Prod.mk.injEq, Except.ok.injEq] at h
          obtain ⟨hdb, happ⟩ := h
          subst hdb
          subst happ
          refine ⟨rfl, ?_⟩
          rw [findApplication_setApplication_hit db { a with status := st } aid pid
            hida hpida a hfa]
          rfl

/-- C3 (amended), witness: re-deciding the already-accepted application 1 to
rejected succeeds and stores rejected. -/
theorem decision_overwrites_w :
    ((update_application_status happy4 1 1 .rejected user1).1.findApplication 1 1).map
      Application.status = some .rejected :=
  (decision_overwrites happy4 1 1 .rejected user1
      (update_application_status happy4 1 1 .rejected user1).1
      { id := 1, project_id := 1, student_id := 2, status := .rejected }
      (by decide)).2

/-! ## C4 -/

/-- C4, counterexample: in a state reached purely by workflow operations
(create, publish, two applications, accept, assign, review, complete) the
project is `completed` — a terminal state — and a second application is still
pending; the owner's acceptance of that application succeeds and moves the
project back to `in_progress`, a change that is not an edge of the §4.1
graph. -/
theorem status_graph_cex :
    (two7.findProject 1).map Project.status = some .completed ∧
    (two7.findApplication 2 1).map Application.status = some .pending ∧
    (update_application_status two7 1 2 .accepted user1).2 =
      .ok { id := 2, project_id := 1, student_id := 3, status := .accepted } ∧
    (two8.findProject 1).map Project.status = some .inProgress ∧
    statusEdge .completed .inProgress = false := by
  decide

/-- C4 (amended): status changes made by Publish, RequestReview,
CompleteProject and AssignWorker follow the §4.1 operation graph, and Apply,
non-accepting decisions, CreateTask, AssignTask and SubmitRating never change
any project's status; but DecideApplication with decision=accepted sets the
project to in_progress from ANY prior status, and the operator Cancel sets
cancelled from ANY status, so the graph (backward moves, leaving terminal
states) can be violated exactly through those two paths. -/
theorem status_changes_follow_ops :
    (∀ db pid cu p db' p', db.findProject pid = some p →
       publish_project db pid cu = (db', .ok p') →
       statusEdge p.status p'.status = true) ∧
    (∀ db pid cu p db' p', db.findProject pid = some p →
       request_review db pid cu = (db', .ok p') →
       statusEdge p.status p'.status = true) ∧
    (∀ db pid cu p db' p', db.findProject pid = some p →
       complete_project db pid cu = (db', .ok p') →
       statusEdge p.status p'.status = true) ∧
    (∀ db pid tgt cu p db' p', db.findProject pid = some p →
       assign_project_assignee db pid tgt cu = (db', .ok p') →
       p'.status = p.status ∨ statusEdge p.status p'.status = true) ∧
    (∀ db pid aid cu db' app',
       update_application_status db pid aid .accepted cu = (db', .ok app') →
       (db'.findProject pid).map Project.status = some .inProgress) ∧
    (∀ db pid aid st cu db' app', st ≠ .accepted →
       update_application_status db pid aid st cu = (db', .ok app') →
       db'.projects = db.projects) ∧
    (∀ db pid cu db' a, apply_for_project db pid cu = (db', .ok a) →
       db'.projects = db.projects) ∧
    (∀ db pid td cu db' t, create_task db pid td cu = (db', .ok t) →
       db'.projects = db.projects) ∧
    (∀ db pid tid tgt cu db' t, assign_task_assignee db pid tid tgt cu = (db', .ok t) →
       db'.projects = db.projects) ∧
    (∀ db rd cu db' r, create_rating db rd cu = (db', .ok r) →
       db'.projects = db.projects) ∧
    (∀ db pid cu p db', db.findProject pid = some p →
       admin_delete_project db pid cu = (db', .ok ()) →
       (db'.findProject pid).map Project.status = some .cancelled) := by
  refine ⟨?_, ?_, ?_, ?_, ?_, ?_, ?_, ?_, ?_, ?_, ?_⟩
  · -- publish: draft → open
    intro db pid cu p db' p' hp h
    unfold publish_project at h
    simp only [hp] at h
    split at h
    · simp at h
    · split at h
      · simp at h
      · rename_i hdraft
        have hd : p.status = .draft := by simpa using hdraft
        simp only [Prod.mk.injEq, Except.ok.injEq] at h
        obtain ⟨hdb, hpp⟩ := h
        subst hpp
        rw [hd]
        rfl
  · -- request review: in_progress → review
    intro db pid cu p db' p' hp h
    unfold request_review at h
    simp only [hp] at h
    split at h
    · simp at h
    · split at h
      · simp at h
      · rename_i hip
        have hi : p.status = .inProgress := by simpa using hip
        simp only [Prod.mk.injEq, Except.ok.injEq] at h
        obtain ⟨hdb, hpp⟩ := h
        subst hpp
        rw [hi]
        rfl
  · -- complete: {in_progress, review} → completed
    intro db pid cu p db' p' hp h
    unfold complete_project at h
    simp only [hp] at h
    split at h
    · simp at h
    · split at h
      · simp at h
      · split at h
        · simp at h
        · rename_i hst _
          have hs := not_not.mp hst
          simp only [Prod.mk.injEq, Except.ok.injEq] at h
          obtain ⟨hdb, hpp⟩ := h
          subst hpp
          rcases hs with h1 | h1 <;> rw [h1] <;> rfl
  · -- assign worker: unchanged, or open → in_progress
    intro db pid tgt cu p db' p' hp h
    unfold assign_project_assignee at h
    simp only [hp] at h
    split at h
    · simp at h
    · split at h
      · split at h
        · simp at h
        · split at h
          · simp at h
          · simp only [Prod.mk.injEq, Except.ok.injEq] at h
            obtain ⟨hdb, hpp⟩ := h
            subst hpp
            by_cases ho : p.status = .open_
            · right
              rw [ho]
              simp only [ho, reduceIte]
              rfl
            · left
              simp [ho]
      · simp only [Prod.mk.injEq, Except.ok.injEq] at h
        obtain ⟨hdb, hpp⟩ := h
        subst hpp
        left
        rfl
  · -- accepting a decision forces in_progress, whatever the prior status
    intro db pid aid cu db' app' h
    unfold update_application_status at h
    split at h
    · simp at h
    · rename_i p hp
      split at h
      · simp at h
      · split at h
        · simp at h
        · simp only [reduceIte, Prod.mk.injEq, Except.ok.injEq] at h
          obtain ⟨hdb, happ⟩ := h
          subst hdb
          rw [findProject_setProject, findProject_setApplication, hp]
          simp
  · -- non-accepting decisions write no project row
    intro db pid aid st cu db' app' hst h
    unfold update_application_status at h
    split at h
    · simp at h
    · split at h
      · simp at h
      · split at h
        · simp at h
        · simp only [Prod.mk.injEq, Except.ok.injEq] at h
          obtain ⟨hdb, happ⟩ := h
          subst hdb
          rfl
  · -- apply writes only an application row
    intro db pid cu db' a h
    unfold apply_for_project at h
    split at h
    · simp at h
    · split at h
      · simp at h
      · split at h
        · simp at h
        · split at h
          · simp at h
          · simp only [Prod.mk.injEq, Except.ok.injEq] at h
            obtain ⟨hdb, ha⟩ := h
            subst hdb
            rfl
  · -- create_task writes only a task row
    intro db pid td cu db' t h
    unfold create_task at h
    split at h
    · simp at h
    · split at h
      · simp at h
      · simp only [Prod.mk.injEq, Except.ok.injEq] at h
        obtain ⟨hdb, ht⟩ := h
        subst hdb
        rfl
  · -- assign_task writes only a task row
    intro db pid tid tgt cu db' t h
    unfold assign_task_assignee at h
    split at h
    · simp at h
    · split at h
      · simp at h
      · split at h
        · simp at h
        · split at h
          · split at h
            · simp at h
            · split at h
              · simp at h
              · simp only [Prod.mk.injEq, Except.ok.injEq] at h
                obtain ⟨hdb, ht⟩ := h
                subst hdb
                rfl
          · simp only [Prod.mk.injEq, Except.ok.injEq] at h
            obtain ⟨hdb, ht⟩ := h
            subst hdb
            rfl
  · -- rating writes only a rating row and a user row
    intro db rd cu db' r h
    have hdb : db' = (create_rating db rd cu).1 := by rw [h]
    rw [hdb]
    unfold create_rating
    repeat' split
    all_goals first
      | rfl
      | simp only [applyRatingScore_projects]
  · -- operator cancel forces cancelled, whatever the prior status
    intro db pid cu p db' hp h
    unfold admin_delete_project at h
    split at h
    · simp at h
    · simp only [hp] at h
      simp only [Prod.mk.injEq] at h
      obtain ⟨hdb, hu⟩ := h
      subst hdb
      rw [findProject_setProject, hp]
      simp

/-- C4 (amended), witness: publishing the freshly created draft project moves
it along the draft → open edge. -/
theorem status_changes_follow_ops_w :
    statusEdge .draft .open_ = true :=
  status_changes_follow_ops.1 happy1 1 user1
    { id := 1, title := "p", budget := 1000, status := .draft, customer_id := 1,
      assignee_id := none }
    happy2
    { id := 1, title := "p", budget := 1000, status := .open_, customer_id := 1,
      assignee_id := none }
    (by decide) (by decide)

/-! ## C5 -/

/-- C5, counterexample: project 1 is a draft owned by U1 with a null
assignee; CompleteProject by the owner fails, but with InvalidState (the
status guard runs first), not with InvalidArgument as the claim requires for
all status values. -/
theorem complete_null_assignee_cex :
    (happy1.findProject 1).map Project.status = some .draft ∧
    (happy1.findProject 1).map Project.assignee_id = some none ∧
    (happy1.findProject 1).map Project.customer_id = some user1.id ∧
    complete_project happy1 1 user1 = (happy1, .error .invalidState) ∧
    ApiError.invalidState ≠ ApiError.invalidArgument := by
  decide

/-- C5 (amended): CompleteProject by the owner of a project whose assignee is
null always fails and writes nothing, but the error class is InvalidArgument
only when the status is in_progress or review; for every other status the
status guard runs first and reports InvalidState. -/
theorem complete_null_assignee_error
    (db : DB) (pid : Nat) (cu : User) (p : Project)
    (hp : db.findProject pid = some p)
    (hown : p.customer_id = cu.id)
    (hassign : p.assignee_id = none) :
    complete_project db pid cu =
      (db, .error (if p.status = .inProgress ∨ p.status = .review
                   then .invalidArgument else .invalidState)) := by
  unfold complete_project
  simp only [hp]
  by_cases hs : p.status = .inProgress ∨ p.status = .review
  · simp [hown, hs, hassign, optTruthy]
  · simp [hown, hs]

/-- C5 (amended), witness: completing the draft project 1 (null assignee) as
its owner yields InvalidState. -/
theorem complete_null_assignee_error_w :
    complete_project happy1 1 user1 = (happy1, .error .invalidState) := by
  have h := complete_null_assignee_error happy1 1 user1
      { id := 1, title := "p", budget := 1000, status := .draft, customer_id := 1,
        assignee_id := none }
      (by decide) rfl rfl
  simpa using h

/-! ## C6 -/

/-- C6, counterexample: project 1 is already in the terminal status
completed, yet the operator cancel succeeds and moves it to cancelled — the
claim requires the call to fail and leave the status unchanged. -/
theorem cancel_terminal_cex :
    (two7.findProject 1).map Project.status = some .completed ∧
    (admin_delete_project two7 1 adminUser).2 = .ok () ∧
    ((admin_delete_project two7 1 adminUser).1.findProject 1).map Project.status
      = some .cancelled := by
  decide

/-- C6 (amended): the operator cancel path (admin delete_project) carries no
terminal-status guard: for every existing project, whatever its current
status — completed and cancelled included — the call succeeds and sets
status=cancelled. -/
theorem cancel_ignores_terminal
    (db : DB) (pid : Nat) (cu : User) (p : Project)
    (hadmin : cu.role = .admin)
    (hp : db.findProject pid = some p) :
    admin_delete_project db pid cu =
      (db.setProject { p with status := .cancelled }, .ok ()) ∧
    ((admin_delete_project db pid cu).1.findProject pid).map Project.status =
      some .cancelled := by
  have h1 : admin_delete_project db pid cu =
      (db.setProject { p with status := .cancelled }, .ok ()) := by
    unfold admin_delete_project requireAdmin
    simp [hadmin, hp]
  refine ⟨h1, ?_⟩
  rw [h1]
  show ((db.setProject { p with status := .cancelled }).findProject pid).map
    Project.status = some .cancelled
  rw [findProject_setProject, hp]
  simp

/-- C6 (amended), witness: cancelling the completed project 1 as the operator
succeeds and stores cancelled. -/
theorem cancel_ignores_terminal_w :
    ((admin_delete_project two7 1 adminUser).1.findProject 1).map Project.status =
      some .cancelled :=
  (cancel_ignores_terminal two7 1 adminUser
      { id := 1, title := "p", budget := 1000, status := .completed, customer_id := 1,
        assignee_id := some 2 }
      rfl (by decide)).2

/-! ## C7 -/

/-- C7, counterexample: no user with id 0 exists, yet AssignWorker by the
owner with the non-null target 0 does not fail with NotFound: the source
tests `if assignee_data.assignee_id:` (Python truthiness), so 0 takes the
unassign branch — the call succeeds and clears the assignee. -/
theorem assign_zero_target_cex :
    two7.findUser 0 = none ∧
    (two7.findProject 1).map Project.customer_id = some user1.id ∧
    (assign_project_assignee two7 1 (some 0) user1).2 =
      .ok { id := 1, title := "p", budget := 1000, status := .completed,
            customer_id := 1, assignee_id := none } ∧
    ((assign_project_assignee two7 1 (some 0) user1).1.findProject 1).map
      Project.assignee_id = some none := by
  decide

/-- C7 (amended): AssignWorker by the owning requester with a non-null,
NONZERO target fails NotFound when the target user does not exist and
InvalidArgument when the target is not a worker; on success it sets the
assignee and moves status open → in_progress exactly when the current status
is open (unchanged otherwise); a null OR ZERO target (Python truthiness)
always unassigns: it succeeds, clears the assignee and never changes the
status. -/
theorem assign_worker_behavior :
    (∀ db pid n cu p, db.findProject pid = some p → p.customer_id = cu.id → n ≠ 0 →
       db.findUser n = none →
       assign_project_assignee db pid (some n) cu = (db, .error .notFound)) ∧
    (∀ db pid n cu p u, db.findProject pid = some p → p.customer_id = cu.id → n ≠ 0 →
       db.findUser n = some u → u.role ≠ .student →
       assign_project_assignee db pid (some n) cu = (db, .error .invalidArgument)) ∧
    (∀ db pid n cu p u, db.findProject pid = some p → p.customer_id = cu.id → n ≠ 0 →
       db.findUser n = some u → u.role = .student →
       assign_project_assignee db pid (some n) cu =
         (db.setProject
            { p with
              assignee_id := some n
              status := if p.status = .open_ then .inProgress else p.status },
          .ok { p with
                assignee_id := some n
                status := if p.status = .open_ then .inProgress else p.status })) ∧
    (∀ db pid tgt cu p, db.findProject pid = some p → p.customer_id = cu.id →
       optTruthy tgt = false →
       assign_project_assignee db pid tgt cu =
         (db.setProject { p with assignee_id := none },
          .ok { p with assignee_id := none })) := by
  refine ⟨?_, ?_, ?_, ?_⟩
  · intro db pid n cu p hp hown hn hu
    unfold assign_project_assignee
    simp only [hp]
    simp [hown, optTruthy, hn, hu]
  · intro db pid n cu p u hp hown hn hu hrole
    unfold assign_project_assignee
    simp only [hp]
    simp [hown, optTruthy, hn, hu, hrole]
  · intro db pid n cu p u hp hown hn hu hrole
    unfold assign_project_assignee
    simp only [hp]
    simp [hown, optTruthy, hn, hu, hrole]
  · intro db pid tgt cu p hp hown htr
    unfold assign_project_assignee
    simp only [hp]
    simp [hown, htr]

/-- C7 (amended), witness: unassigning via the zero target on the completed
project 1 succeeds, clears the assignee and keeps the status. -/
theorem assign_worker_behavior_w :
    assign_project_assignee two7 1 (some 0) user1 =
      (two7.setProject
        { id := 1, title := "p", budget := 1000, status := .completed,
          customer_id := 1, assignee_id := none },
       .ok
        { id := 1, title := "p", budget := 1000, status := .completed,
          customer_id := 1, assignee_id := none }) :=
  assign_worker_behavior.2.2.2 two7 1 (some 0) user1
    { id := 1, title := "p", budget := 1000, status := .completed, customer_id := 1,
      assignee_id := some 2 }
    (by decide) rfl rfl

/-! ## C9 -/

/-- C9, counterexample: worker U2 already holds application 1 for project 1,
but the project has meanwhile left the open status (it is completed), so U2's
second Apply fails with InvalidState — the status guard runs before the
duplicate check — not with Conflict as the claim requires for every worker
who already has an application. -/
theorem duplicate_apply_cex :
    (two7.applications.any fun a => a.project_id == 1 && a.student_id == user2.id) = true ∧
    apply_for_project two7 1 user2 = (two7, .error .invalidState) ∧
    ApiError.invalidState ≠ ApiError.conflict := by
  decide

/-- C9 (amended): uniqueness violations fail and create no row, with the
Conflict class exactly when the earlier guards pass: a worker's second Apply
fails with Conflict when the project is still open and with InvalidState
otherwise (the status guard precedes the duplicate check); a reviewer's
second Rating for the same project fails with Conflict whenever the project
is still completed and the pairing guard passes (those guards run first). -/
theorem duplicate_uniqueness_guards :
    (∀ db pid cu p, cu.role = .student → db.findProject pid = some p →
       (db.applications.any fun a => a.project_id == pid && a.student_id == cu.id) = true →
       apply_for_project db pid cu =
         (db, .error (if p.status = .open_ then .conflict else .invalidState))) ∧
    (∀ db rd cu p, db.findProject rd.project_id = some p →
       p.status = .completed →
       rating_role_guard p cu rd.reviewee_id = none →
       (db.ratings.any fun r =>
         r.project_id == rd.project_id && r.reviewer_id == cu.id) = true →
       create_rating db rd cu = (db, .error .conflict)) := by
  refine ⟨?_, ?_⟩
  · intro db pid cu p hrole hp hdup
    unfold apply_for_project
    simp only [hp]
    by_cases hs : p.status = .open_
    · simp [hrole, hs, hdup]
    · simp [hrole, hs]
  · intro db rd cu p hp hst hguard hdup
    unfold create_rating
    simp only [hp]
    simp [hst, hguard, hdup]

/-- C9 (amended), witness: U2's second Apply while project 1 is still open
fails with Conflict and leaves the store unchanged. -/
theorem duplicate_uniqueness_guards_w :
    apply_for_project happy3 1 user2 = (happy3, .error .conflict) := by
  have h := duplicate_uniqueness_guards.1 happy3 1 user2
      { id := 1, title := "p", budget := 1000, status := .open_, customer_id := 1,
        assignee_id := none }
      rfl (by decide) (by decide)
  simpa using h

/-! ## C10 -/

/-- C10: every workflow operation is atomic with respect to failure: for
each operation and every input on which it returns an error, the store it
leaves behind is exactly the input store — in the source every raise site
precedes every session write and an uncommitted session is discarded, so a
guard failure writes nothing. -/
theorem failed_calls_write_nothing :
    (∀ db pid cu db' e, publish_project db pid cu = (db', .error e) → db' = db) ∧
    (∀ db pid tgt cu db' e,
       assign_project_assignee db pid tgt cu = (db', .error e) → db' = db) ∧
    (∀ db pid cu db' e, apply_for_project db pid cu = (db', .error e) → db' = db) ∧
    (∀ db pid aid st cu db' e,
       update_application_status db pid aid st cu = (db', .error e) → db' = db) ∧
    (∀ db pid cu db' e, request_review db pid cu = (db', .error e) → db' = db) ∧
    (∀ db pid cu db' e, complete_project db pid cu = (db', .error e) → db' = db) ∧
    (∀ db pid td cu db' e, create_task db pid td cu = (db', .error e) → db' = db) ∧
    (∀ db pid tid tgt cu db' e,
       assign_task_assignee db pid tid tgt cu = (db', .error e) → db' = db) ∧
    (∀ db rd cu db' e, create_rating db rd cu = (db', .error e) → db' = db) := by
  refine ⟨?_, ?_, ?_, ?_, ?_, ?_, ?_, ?_, ?_⟩
  · intro db pid cu db' e h
    unfold publish_project at h
    repeat' split at h
    all_goals simp_all
  · intro db pid tgt cu db' e h
    unfold assign_project_assignee at h
    repeat' split at h
    all_goals simp_all
  · intro db pid cu db' e h
    unfold apply_for_project at h
    repeat' split at h
    all_goals simp_all
  · intro db pid aid st cu db' e h
    unfold update_application_status at h
    repeat' split at h
    all_goals simp_all
  · intro db pid cu db' e h
    unfold request_review at h
    repeat' split at h
    all_goals simp_all
  · intro db pid cu db' e h
    unfold complete_project at h
    repeat' split at h
    all_goals simp_all
  · intro db pid td cu db' e h
    unfold create_task at h
    repeat' split at h
    all_goals simp_all
  · intro db pid tid tgt cu db' e h
    unfold assign_task_assignee at h
    repeat' split at h
    all_goals simp_all
  · intro db rd cu db' e h
    unfold create_rating at h
    repeat' split at h
    all_goals simp_all

/-- C10, witness: a decision call by a non-owner fails Forbidden and leaves
the store exactly as it was. -/
theorem failed_calls_write_nothing_w :
    (update_application_status happy4 1 1 .accepted user2).1 = happy4 :=
  failed_calls_write_nothing.2.2.2.1 happy4 1 1 .accepted user2
    (update_application_status happy4 1 1 .accepted user2).1 .forbidden (by decide)

/-! ## C8 -/

theorem revieweeScores_setUser (db : DB) (u : User) (x : Nat) :
    (db.setUser u).revieweeScores x = db.revieweeScores x := rfl

theorem revieweeScores_append_self (db : DB) (r0 : Rating) (nid : Nat) :
    ({ db with ratings := db.ratings ++ [r0], next_rating_id := nid } : DB).revieweeScores
      r0.reviewee_id = db.revieweeScores r0.reviewee_id ++ [r0.score] := by
  unfold DB.revieweeScores
  simp [List.filter_append]

theorem avgOrZero_perm {l1 l2 : List Nat} (h : List.Perm l1 l2) :
    avgOrZero l1 = avgOrZero l2 := by
  unfold avgOrZero
  rw [h.length_eq, (List.Perm.map (fun n : Nat => (n : ℚ)) h).sum_eq]

/-- Effect of the reviewee-recompute step when the reviewee exists: the
rating rows are untouched and the reviewee's stored score becomes the mean of
their current score history. -/
theorem applyRatingScore_spec (db1 : DB) (uid : Nat) (b : Bool) (u : User)
    (hu : db1.findUser uid = some u) :
    (applyRatingScore db1 uid b).revieweeScores uid = db1.revieweeScores uid ∧
    ((applyRatingScore db1 uid b).findUser uid).isSome = true ∧
    ((applyRatingScore db1 uid b).findUser uid).map User.rating_score =
      some (avgOrZero (db1.revieweeScores uid)) := by
  have hid : u.id = uid := findUser_id hu
  unfold applyRatingScore
  simp only [hu]
  refine ⟨rfl, ?_, ?_⟩
  · rw [findUser_setUser, hu]
    simp
  · rw [findUser_setUser, hu]
    simp [hid]

/-- Effect of one successful SubmitRating on the reviewee's history and
stored score, when the reviewee exists: exactly one score is appended to the
history and the stored score becomes the mean of the new history. -/
theorem create_rating_ok_spec
    (db : DB) (rd : RatingCreate) (cu : User) (db' : DB) (r : Rating)
    (hex : (db.findUser rd.reviewee_id).isSome = true)
    (h : create_rating db rd cu = (db', .ok r)) :
    db'.revieweeScores rd.reviewee_id = db.revieweeScores rd.reviewee_id ++ [rd.score] ∧
    (db'.findUser rd.reviewee_id).isSome = true ∧
    (db'.findUser rd.reviewee_id).map User.rating_score =
      some (avgOrZero (db'.revieweeScores rd.reviewee_id)) := by
  unfold create_rating at h
  split at h
  · simp at h
  · split at h
    · simp at h
    · split at h
      · simp at h
      · split at h
        · simp at h
        · simp only [Prod.mk.injEq, Except.ok.injEq] at h
          obtain ⟨hdb, hr⟩ := h
          subst hdb
          rcases Option.isSome_iff_exists.mp hex with ⟨u, hu⟩
          have hu1 : ({ db with
              ratings := db.ratings ++
                [{ id := db.next_rating_id, project_id := rd.project_id,
                   reviewer_id := cu.id, reviewee_id := rd.reviewee_id,
                   score := rd.score }]
              next_rating_id := db.next_rating_id + 1 } : DB).findUser rd.reviewee_id
              = some u := hu
          have happ := applyRatingScore_spec _ rd.reviewee_id
            (cu.role == UserRole.customer) u hu1
          refine ⟨?_, happ.2.1, ?_⟩
          · rw [happ.1]
            exact revieweeScores_append_self db
              { id := db.next_rating_id, project_id := rd.project_id,
                reviewer_id := cu.id, reviewee_id := rd.reviewee_id, score := rd.score }
              (db.next_rating_id + 1)
          · rw [happ.2.2, happ.1]

/-- Running a sequence of successful SubmitRating calls that all name
reviewee `u` (who exists) appends exactly the submitted scores to `u`'s
history and, when the sequence is non-empty, leaves `u`'s stored score equal
to the mean of the final history. -/
theorem runRatings_spec (u : Nat) :
    ∀ (calls : List (RatingCreate × User)) (db db' : DB),
      (∀ c ∈ calls, c.1.reviewee_id = u) →
      (db.findUser u).isSome = true →
      runRatings db calls = (db', true) →
      db'.revieweeScores u = db.revieweeScores u ++ calls.map (fun c => c.1.score) ∧
      (db'.findUser u).isSome = true ∧
      (calls = [] → db' = db) ∧
      (calls ≠ [] → (db'.findUser u).map User.rating_score =
        some (avgOrZero (db'.revieweeScores u))) := by
  intro calls
  induction calls with
  | nil =>
    intro db db' hall hex hrun
    unfold runRatings at hrun
    simp only [Prod.mk.injEq] at hrun
    obtain ⟨hdb, _⟩ := hrun
    subst hdb
    simp [hex]
  | cons c rest ih =>
    intro db db' hall hex hrun
    obtain ⟨rd, cu⟩ := c
    unfold runRatings at hrun
    split at hrun
    · rename_i db1 r hc
      have hrev : rd.reviewee_id = u := hall (rd, cu) (List.mem_cons_self _ _)
      have hexd : (db.findUser rd.reviewee_id).isSome = true := by
        rw [hrev]
        exact hex
      obtain ⟨h1, h2, h3⟩ := create_rating_ok_spec db rd cu db1 r hexd hc
      rw [hrev] at h1 h2 h3
      obtain ⟨ih1, ih2, ih3, ih4⟩ :=
        ih db1 db' (fun c hc' => hall c (List.mem_cons_of_mem _ hc')) h2 hrun
      refine ⟨?_, ih2, ?_, ?_⟩
      · rw [ih1, h1]
        simp
      · intro hcon
        simp at hcon
      · intro _
        by_cases hre : rest = []
        · have hdb' : db' = db1 := ih3 hre
          subst hdb'
          exact h3
        · exact ih4 hre
    · simp at hrun

/-- C8: starting from a store in which the reviewee exists and has no rating
history, after any non-empty sequence of successful SubmitRating calls all
naming that reviewee with scores s₁..sₙ, the reviewee's stored rating_score
equals the arithmetic mean of s₁..sₙ (the full history across all projects),
and any permutation of the call sequence that also runs successfully yields
the same final rating_score — the recomputation is a full-history mean, so
the result is insertion-order independent. -/
theorem rating_mean_of_history :
    (∀ (db : DB) (u : Nat) (calls : List (RatingCreate × User)) (db' : DB),
       (∀ c ∈ calls, c.1.reviewee_id = u) →
       (db.findUser u).isSome = true →
       db.revieweeScores u = [] →
       calls ≠ [] →
       runRatings db calls = (db', true) →
       db'.revieweeScores u = calls.map (fun c => c.1.score) ∧
       (db'.findUser u).map User.rating_score =
         some (avgOrZero (calls.map fun c => c.1.score))) ∧
    (∀ (db : DB) (u : Nat) (calls1 calls2 : List (RatingCreate × User)) (db1 db2 : DB),
       List.Perm calls1 calls2 →
       (∀ c ∈ calls1, c.1.reviewee_id = u) →
       (db.findUser u).isSome = true →
       db.revieweeScores u = [] →
       calls1 ≠ [] →
       runRatings db calls1 = (db1, true) →
       runRatings db calls2 = (db2, true) →
       (db1.findUser u).map User.rating_score = (db2.findUser u).map User.rating_score) := by
  have main : ∀ (db : DB) (u : Nat) (calls : List (RatingCreate × User)) (db' : DB),
      (∀ c ∈ calls, c.1.reviewee_id = u) →
      (db.findUser u).isSome = true →
      db.revieweeScores u = [] →
      calls ≠ [] →
      runRatings db calls = (db', true) →
      db'.revieweeScores u = calls.map (fun c => c.1.score) ∧
      (db'.findUser u).map User.rating_score =
        some (avgOrZero (calls.map fun c => c.1.score)) := by
    intro db u calls db' hall hex hempty hne hrun
    obtain ⟨h1, _, _, h4⟩ := runRatings_spec u calls db db' hall hex hrun
    rw [hempty] at h1
    simp only [List.nil_append] at h1
    refine ⟨h1, ?_⟩
    rw [h4 hne, h1]
  refine ⟨main, ?_⟩
  intro db u calls1 calls2 db1 db2 hperm hall hex hempty hne hrun1 hrun2
  have hall2 : ∀ c ∈ calls2, c.1.reviewee_id = u := fun c hc =>
    hall c (hperm.mem_iff.mpr hc)
  have hne2 : calls2 ≠ [] := by
    intro hnil
    exact hne (List.Perm.eq_nil (hnil ▸ hperm))
  have r1 := main db u calls1 db1 hall hex hempty hne hrun1
  have r2 := main db u calls2 db2 hall2 hex hempty hne2 hrun2
  rw [r1.2, r2.2, avgOrZero_perm (hperm.map fun c => c.1.score)]

/-- C8, witness: U1 rates U2 with 5 on project 1 and U4 rates U2 with 4 on
project 2; U2's stored score is the mean of both scores, 9/2. -/
theorem rating_mean_of_history_w :
    ((runRatings ratingDb ratingCalls).1.findUser 2).map User.rating_score =
      some (avgOrZero [5, 4]) ∧ avgOrZero [5, 4] = 9 / 2 := by
  have h := rating_mean_of_history.1 ratingDb 2 ratingCalls
    (runRatings ratingDb ratingCalls).1
    (by decide) (by decide) (by decide) (by decide) rfl
  exact ⟨h.2, by norm_num [avgOrZero]⟩

end Work21
